import Mathlib

/-!
Verification of the connection-lifecycle and tick-loop core of the `valence`
Minecraft server framework (`src/server.rs`) against its natural-language
specification.

The Rust source is shallowly embedded: pure functions become Lean functions,
stateful code becomes explicit state passing, machine integers become
`Nat`/`Int` with explicit wrapping where overflow matters, and fallible code
returns `Except`/`Option`.  External collaborators (the RSA library, the
Mojang session server, the user `Config` callbacks, SHA-256) are abstracted
as parameters of the models; SHA-1 and base64 are given executable reference
implementations so the concrete test vectors can be checked.
-/

namespace Valence

/-! ## Bytes, words, and SHA-1 (reference implementation of the `sha1` crate
as used by `handle_login` and the `weird_hex_encoding` unit tests) -/

/-- 2^32, the modulus for 32-bit words. -/
def MOD32 : Nat := 2 ^ 32

/-- Rotate a 32-bit word left by `k` bits. -/
def rotl32 (k x : Nat) : Nat := ((x <<< k) ||| (x >>> (32 - k))) % MOD32

/-- The bytes of an ASCII string. -/
def strBytes (s : String) : List Nat := s.data.map Char.toNat

/-- `k` big-endian bytes of `n` (most significant first). -/
def natToBytesBE : Nat → Nat → List Nat
  | 0, _ => []
  | k + 1, n => natToBytesBE k (n / 256) ++ [n % 256]

/-- Pack bytes into big-endian 32-bit words (groups of four). -/
def bytesToWordsBE : List Nat → List Nat
  | a :: b :: c :: d :: rest => (((a * 256 + b) * 256 + c) * 256 + d) :: bytesToWordsBE rest
  | _ => []

/-- SHA-1 padding: append 0x80, zero bytes to 56 mod 64, and the 64-bit
big-endian bit length. -/
def sha1Pad (msg : List Nat) : List Nat :=
  let len := msg.length
  let zeros := (120 - (len + 1) % 64) % 64
  msg ++ [0x80] ++ List.replicate zeros 0 ++ natToBytesBE 8 (len * 8)

/-- The five 32-bit words of SHA-1 chaining state. -/
structure Sha1State where
  a : Nat
  b : Nat
  c : Nat
  d : Nat
  e : Nat
deriving DecidableEq

/-- Extend a 16-word block to the 80-word SHA-1 message schedule. -/
def sha1Schedule (w16 : List Nat) : List Nat :=
  (List.range 64).foldl
    (fun w _ =>
      let n := w.length
      w ++ [rotl32 1 ((w.getD (n - 3) 0) ^^^ (w.getD (n - 8) 0) ^^^ (w.getD (n - 14) 0) ^^^ (w.getD (n - 16) 0))])
    w16

/-- One SHA-1 round. -/
def sha1Round (w : List Nat) (st : Nat × Nat × Nat × Nat × Nat) (i : Nat) :
    Nat × Nat × Nat × Nat × Nat :=
  let (a, b, c, d, e) := st
  let f :=
    if i < 20 then (b &&& c) ||| ((b ^^^ 0xFFFFFFFF) &&& d)
    else if i < 40 then b ^^^ c ^^^ d
    else if i < 60 then (b &&& c) ||| (b &&& d) ||| (c &&& d)
    else b ^^^ c ^^^ d
  let k :=
    if i < 20 then 0x5A827999
    else if i < 40 then 0x6ED9EBA1
    else if i < 60 then 0x8F1BBCDC
    else 0xCA62C1D6
  let temp := (rotl32 5 a + f + e + k + w.getD i 0) % MOD32
  (temp, a, rotl32 30 b, c, d)

/-- Compress one 512-bit block into the chaining state. -/
def sha1Compress (h : Sha1State) (block : List Nat) : Sha1State :=
  let w := sha1Schedule block
  let (a, b, c, d, e) := (List.range 80).foldl (sha1Round w) (h.a, h.b, h.c, h.d, h.e)
  ⟨(h.a + a) % MOD32, (h.b + b) % MOD32, (h.c + c) % MOD32, (h.d + d) % MOD32,
   (h.e + e) % MOD32⟩

/-- Process the padded message, 16 words per block (`fuel` bounds the number
of steps; it is instantiated with the word count). -/
def sha1Blocks : Nat → List Nat → Sha1State → Sha1State
  | 0, _, h => h
  | _, [], h => h
  | fuel + 1, ws, h => sha1Blocks fuel (ws.drop 16) (sha1Compress h (ws.take 16))

/-- SHA-1 of a byte sequence, as a list of 20 bytes. -/
def sha1 (msg : List Nat) : List Nat :=
  let words := bytesToWordsBE (sha1Pad msg)
  let h := sha1Blocks words.length words ⟨0x67452301, 0xEFCDAB89, 0x98BADCFE, 0x10325476, 0xC3D2E1F0⟩
  natToBytesBE 4 h.a ++ natToBytesBE 4 h.b ++ natToBytesBE 4 h.c ++ natToBytesBE 4 h.d ++
    natToBytesBE 4 h.e

/-! ## `weird_hex_encoding` (src/server.rs lines 737-739)

`BigInt::from_signed_bytes_be(bytes).to_str_radix(16)`. -/

/-- The unsigned big-endian value of a byte string
(`BigUint::from_bytes_be`). -/
def bytesToNatBE (bs : List Nat) : Nat := bs.foldl (fun a b => a * 256 + b) 0

/-- `BigInt::from_signed_bytes_be`: two's-complement big-endian
interpretation; the sign is the high bit of the first byte. -/
def from_signed_bytes_be (bs : List Nat) : Int :=
  match bs with
  | [] => 0
  | b :: _ =>
    if 128 ≤ b then (bytesToNatBE bs : Int) - 2 ^ (8 * bs.length) else (bytesToNatBE bs : Int)

/-- Lowercase hex digit for a value below 16. -/
def hexDigitChar (n : Nat) : Char := if n < 10 then Char.ofNat (48 + n) else Char.ofNat (87 + n)

/-- Big-endian minimal hex digits of `n` (empty for 0); `fuel` bounds the
recursion and is instantiated with `n` itself. -/
def natToHexCore : Nat → Nat → List Char
  | 0, _ => []
  | fuel + 1, n => if n = 0 then [] else natToHexCore fuel (n / 16) ++ [hexDigitChar (n % 16)]

/-- Minimal big-endian hex digits of `n` (`"0"` for 0), as in
`BigUint::to_str_radix(16)`. -/
def natToHex (n : Nat) : List Char := if n = 0 then ['0'] else natToHexCore n n

/-- `BigInt::to_str_radix(16)`: minimal hex digits of the magnitude,
prefixed with a minus sign for negative values. -/
def to_str_radix_16 (i : Int) : String :=
  if i < 0 then String.mk ('-' :: natToHex i.natAbs) else String.mk (natToHex i.toNat)

/-- `weird_hex_encoding` from src/server.rs: render the byte sequence as a
signed two's-complement big-endian integer in base 16. -/
def weird_hex_encoding (bytes : List Nat) : String :=
  to_str_radix_16 (from_signed_bytes_be bytes)

/-! Spec-side definitions for claim C1, written from the specification's
words rather than from the source, to compare to `weird_hex_encoding`. -/

/-- Spec: the value of a byte sequence read as a big-endian two's-complement
signed big integer: the leading byte contributes with weight
`±` according to its high bit, the rest contribute unsigned. -/
def twos_complement_be : List Nat → Int
  | [] => 0
  | b :: rest =>
    (if 128 ≤ b then (b : Int) - 256 else (b : Int)) * 256 ^ rest.length + bytesToNatBE rest

/-- Value of a hex digit character. -/
def hexCharVal (c : Char) : Nat := if 97 ≤ c.toNat then c.toNat - 87 else c.toNat - 48

/-- Parse big-endian hex digits as a natural number. -/
def parseHexNat (cs : List Char) : Nat := cs.foldl (fun a c => a * 16 + hexCharVal c) 0

/-- Parse a signed base-16 string (optional leading minus sign). -/
def parseSignedHex (s : String) : Int :=
  match s.data with
  | [] => 0
  | c :: rest => if c = '-' then -(parseHexNat rest : Int) else (parseHexNat (c :: rest) : Int)

/-- The digit part of a rendered number: the characters after an optional
leading minus sign. -/
def hexBody (s : String) : List Char :=
  match s.data with
  | [] => []
  | c :: rest => if c = '-' then rest else c :: rest

/-! Lemmas for C1 -/

theorem foldl_base256 (l : List Nat) :
    ∀ a : Nat, l.foldl (fun a b => a * 256 + b) a = a * 256 ^ l.length + bytesToNatBE l := by
  induction l with
  | nil => intro a; simp [bytesToNatBE]
  | cons c l ih =>
    intro a
    show (l.foldl (fun a b => a * 256 + b) (a * 256 + c)) = _
    rw [ih (a * 256 + c)]
    have hc : bytesToNatBE (c :: l) = c * 256 ^ l.length + bytesToNatBE l := by
      show (l.foldl (fun a b => a * 256 + b) (0 * 256 + c)) = _
      rw [ih (0 * 256 + c)]
      ring
    rw [hc]
    simp [List.length_cons]
    ring

theorem bytesToNatBE_cons (b : Nat) (rest : List Nat) :
    bytesToNatBE (b :: rest) = b * 256 ^ rest.length + bytesToNatBE rest := by
  show (rest.foldl (fun a b => a * 256 + b) (0 * 256 + b)) = _
  rw [foldl_base256 rest (0 * 256 + b)]
  ring

theorem from_signed_eq_twos_complement (bytes : List Nat) :
    from_signed_bytes_be bytes = twos_complement_be bytes := by
  cases bytes with
  | nil => rfl
  | cons b rest =>
    unfold from_signed_bytes_be twos_complement_be
    rw [bytesToNatBE_cons]
    by_cases hb : 128 ≤ b
    · simp only [hb, if_pos]
      push_cast
      have : (8 : Nat) * (rest.length + 1) = 8 * rest.length + 8 := by ring
      simp only [List.length_cons, this, pow_add]
      have h2 : ((2 : Int) ^ (8 * rest.length)) = (256 : Int) ^ rest.length := by
        rw [pow_mul]
        norm_num
      rw [h2]
      ring
    · simp only [hb, if_neg, if_false]
      push_cast
      ring

theorem hexCharVal_hexDigitChar : ∀ m : Nat, m < 16 → hexCharVal (hexDigitChar m) = m := by
  decide

theorem natToHexCore_zero (fuel : Nat) : natToHexCore fuel 0 = [] := by
  cases fuel <;> simp [natToHexCore]

theorem parseHexNat_natToHexCore :
    ∀ fuel n : Nat, n ≤ fuel → parseHexNat (natToHexCore fuel n) = n := by
  intro fuel
  induction fuel with
  | zero =>
    intro n hn
    interval_cases n
    rfl
  | succ fuel ih =>
    intro n hn
    by_cases h0 : n = 0
    · subst h0; rw [natToHexCore_zero]; rfl
    · have hdiv : n / 16 ≤ fuel := by
        have : n / 16 < n := Nat.div_lt_self (Nat.pos_of_ne_zero h0) (by norm_num)
        omega
      unfold natToHexCore
      simp only [h0, if_false]
      unfold parseHexNat
      rw [List.foldl_append]
      have hrec := ih (n / 16) hdiv
      unfold parseHexNat at hrec
      rw [hrec]
      simp only [List.foldl_cons, List.foldl_nil]
      rw [hexCharVal_hexDigitChar (n % 16) (Nat.mod_lt n (by norm_num))]
      omega

theorem parseHexNat_natToHex (n : Nat) : parseHexNat (natToHex n) = n := by
  by_cases h0 : n = 0
  · subst h0; rfl
  · unfold natToHex
    simp only [h0, if_false]
    exact parseHexNat_natToHexCore n n le_rfl

theorem natToHexCore_head :
    ∀ fuel n : Nat, 0 < n → n ≤ fuel →
      ∃ m, 0 < m ∧ m < 16 ∧ (natToHexCore fuel n).head? = some (hexDigitChar m) := by
  intro fuel
  induction fuel with
  | zero => intro n hpos hle; omega
  | succ fuel ih =>
    intro n hpos hle
    unfold natToHexCore
    simp only [Nat.pos_iff_ne_zero.mp hpos, if_false]
    by_cases hsmall : n < 16
    · have hq : n / 16 = 0 := Nat.div_eq_of_lt hsmall
      rw [hq, natToHexCore_zero]
      refine ⟨n % 16, ?_, Nat.mod_lt n (by norm_num), ?_⟩
      · rwa [Nat.mod_eq_of_lt hsmall]
      · simp
    · have hq : 0 < n / 16 := Nat.div_pos (le_of_not_lt hsmall) (by norm_num)
      have hdiv : n / 16 ≤ fuel := by
        have : n / 16 < n := Nat.div_lt_self hpos (by norm_num)
        omega
      obtain ⟨m, hm0, hm16, hhead⟩ := ih (n / 16) hq hdiv
      refine ⟨m, hm0, hm16, ?_⟩
      cases hlist : natToHexCore fuel (n / 16) with
      | nil => rw [hlist] at hhead; simp at hhead
      | cons x xs =>
        rw [hlist] at hhead
        simp only [List.head?] at hhead
        simp [hhead]

theorem natToHex_head (n : Nat) (hpos : 0 < n) :
    ∃ m, 0 < m ∧ m < 16 ∧ (natToHex n).head? = some (hexDigitChar m) := by
  unfold natToHex
  simp only [Nat.pos_iff_ne_zero.mp hpos, if_false]
  exact natToHexCore_head n n hpos le_rfl

theorem hexDigitChar_ne : ∀ m : Nat, m < 16 → 0 < m →
    hexDigitChar m ≠ '0' ∧ hexDigitChar m ≠ '-' := by
  decide

theorem data_mk (l : List Char) : (String.mk l).data = l := rfl

theorem parseSignedHex_mk_neg (cs : List Char) :
    parseSignedHex (String.mk ('-' :: cs)) = -(parseHexNat cs : Int) := by
  show (if '-' = '-' then -(parseHexNat cs : Int) else (parseHexNat ('-' :: cs) : Int)) = _
  rw [if_pos rfl]

theorem parseSignedHex_mk_cons (c : Char) (rest : List Char) (h : ¬ (c = '-')) :
    parseSignedHex (String.mk (c :: rest)) = (parseHexNat (c :: rest) : Int) := by
  show (if c = '-' then -(parseHexNat rest : Int) else (parseHexNat (c :: rest) : Int)) = _
  rw [if_neg h]

theorem hexBody_mk_neg (cs : List Char) : hexBody (String.mk ('-' :: cs)) = cs := by
  show (if '-' = '-' then cs else '-' :: cs) = cs
  rw [if_pos rfl]

theorem hexBody_mk_cons (c : Char) (rest : List Char) (h : ¬ (c = '-')) :
    hexBody (String.mk (c :: rest)) = c :: rest := by
  show (if c = '-' then rest else c :: rest) = c :: rest
  rw [if_neg h]

theorem natToHex_cons (n : Nat) (hpos : 0 < n) :
    ∃ m rest, 0 < m ∧ m < 16 ∧ natToHex n = hexDigitChar m :: rest := by
  obtain ⟨m, hm0, hm16, hhead⟩ := natToHex_head n hpos
  cases hlist : natToHex n with
  | nil => rw [hlist] at hhead; simp at hhead
  | cons c rest =>
    rw [hlist] at hhead
    simp only [List.head?] at hhead
    have hc : c = hexDigitChar m := by injection hhead
    exact ⟨m, rest, hm0, hm16, by rw [hc]⟩

theorem parseSignedHex_to_str (i : Int) : parseSignedHex (to_str_radix_16 i) = i := by
  unfold to_str_radix_16
  by_cases hneg : i < 0
  · simp only [hneg, if_pos]
    rw [parseSignedHex_mk_neg, parseHexNat_natToHex]
    omega
  · simp only [hneg, if_false]
    by_cases h0 : i.toNat = 0
    · rw [h0]
      show parseSignedHex (String.mk ['0']) = i
      rw [parseSignedHex_mk_cons '0' [] (by decide)]
      have : parseHexNat ['0'] = 0 := by decide
      rw [this]
      omega
    · obtain ⟨m, rest, hm0, hm16, hlist⟩ := natToHex_cons i.toNat (Nat.pos_of_ne_zero h0)
      rw [hlist, parseSignedHex_mk_cons _ _ (hexDigitChar_ne m hm16 hm0).2, ← hlist,
        parseHexNat_natToHex]
      omega

theorem hexBody_weird_hex (i : Int) :
    hexBody (to_str_radix_16 i) ≠ [] ∧
      ((hexBody (to_str_radix_16 i)).head? = some '0' → hexBody (to_str_radix_16 i) = ['0']) := by
  have key : ∀ n : Nat, 0 < n →
      natToHex n ≠ [] ∧ ((natToHex n).head? = some '0' → natToHex n = ['0']) := by
    intro n hpos
    obtain ⟨m, rest, hm0, hm16, hlist⟩ := natToHex_cons n hpos
    rw [hlist]
    refine ⟨by simp, ?_⟩
    intro h0
    simp only [List.head?] at h0
    have : hexDigitChar m = '0' := by injection h0
    exact absurd this (hexDigitChar_ne m hm16 hm0).1
  unfold to_str_radix_16
  by_cases hneg : i < 0
  · simp only [hneg, if_pos]
    rw [hexBody_mk_neg]
    have hpos : 0 < i.natAbs := by omega
    exact key i.natAbs hpos
  · simp only [hneg, if_false]
    by_cases h0 : i.toNat = 0
    · rw [h0]
      show hexBody (String.mk ['0']) ≠ [] ∧ _
      rw [hexBody_mk_cons '0' [] (by decide)]
      exact ⟨by simp, fun _ => rfl⟩
    · obtain ⟨m, rest, hm0, hm16, hlist⟩ := natToHex_cons i.toNat (Nat.pos_of_ne_zero h0)
      rw [hlist, hexBody_mk_cons _ _ (hexDigitChar_ne m hm16 hm0).2, ← hlist]
      exact key i.toNat (Nat.pos_of_ne_zero h0)

set_option maxRecDepth 100000

/-- Claim C1: for every byte sequence, `weird_hex_encoding` interprets it as
a big-endian two's-complement signed big integer and renders it in base 16
with minimal representation (no zero-padding, no sign for non-negative
values, a leading minus for negatives); applied to SHA-1 of "Notch", "jeb_"
and "simon" it yields the three vanilla auth-hash test vectors. -/
theorem weird_hex_encoding_spec :
    (∀ bytes : List Nat, from_signed_bytes_be bytes = twos_complement_be bytes)
    ∧ (∀ bytes : List Nat,
        parseSignedHex (weird_hex_encoding bytes) = twos_complement_be bytes)
    ∧ (∀ bytes : List Nat,
        hexBody (weird_hex_encoding bytes) ≠ [] ∧
          ((hexBody (weird_hex_encoding bytes)).head? = some '0' →
            hexBody (weird_hex_encoding bytes) = ['0']))
    ∧ weird_hex_encoding (sha1 (strBytes "Notch")) = "4ed1f46bbe04bc756bcb17c0c7ce3e4632f06a48"
    ∧ weird_hex_encoding (sha1 (strBytes "jeb_")) = "-7c9d5b0044c130109a5d7b5fb5c317c02b4e28c1"
    ∧ weird_hex_encoding (sha1 (strBytes "simon")) = "88e16a1019277b15d58faf0541e11910eb756f6" := by
  refine ⟨from_signed_eq_twos_complement, ?_, ?_, by decide, by decide, by decide⟩
  · intro bytes
    unfold weird_hex_encoding
    rw [parseSignedHex_to_str]
    exact from_signed_eq_twos_complement bytes
  · intro bytes
    exact hexBody_weird_hex (from_signed_bytes_be bytes)

/-- Witness for C1: the theorem applied at concrete inputs, discharging the
hypothesis of its head-digit clause. -/
theorem weird_hex_encoding_spec_witness :
    from_signed_bytes_be [255] = twos_complement_be [255] ∧
      hexBody (weird_hex_encoding [0]) = ['0'] :=
  ⟨weird_hex_encoding_spec.1 [255],
   (weird_hex_encoding_spec.2.2.1 [0]).2 (by decide)⟩

/-! ## `setup_server` configuration validation (src/server.rs lines 236-316)

`ensure!` returns an error from the function (surfaced by `start_server` as
the shutdown result); `assert!` panics.  The two are kept distinct. -/

/-- A world-shape descriptor as read from the user `Config`
(`min_y`/`height` are `i32`, `ambient_light` is modelled as a rational,
`fixed_time` is an `i64` option). -/
structure Dimension where
  min_y : Int
  height : Int
  ambient_light : Rat
  fixed_time : Option Int
deriving DecidableEq

/-- A biome as read from the user `Config` (only the name matters to
validation). -/
structure Biome where
  name : String
deriving DecidableEq

/-- The configuration values consumed by `setup_server`. -/
structure ConfigData where
  max_connections : Nat
  tick_rate : Int
  online_mode : Bool
  incoming_packet_capacity : Nat
  outgoing_packet_capacity : Nat
  dimensions : List Dimension
  biomes : List Biome
deriving DecidableEq

/-- Outcome of `setup_server`: success, an error returned to the caller
(`ensure!`/`bail!`), or a panic (`assert!`). -/
inductive SetupResult where
  | ok
  | err (msg : String)
  | panicked (msg : String)
deriving DecidableEq

/-- `i32::saturating_add`. -/
def satAddI32 (a b : Int) : Int := max (-(2 ^ 31)) (min (2 ^ 31 - 1) (a + b))

/-- The checks on dimension `#i` (src/server.rs lines 272-296); note the
`fixed_time` range check uses `assert!`, not `ensure!`. -/
def checkDimension (i : Nat) (dim : Dimension) : SetupResult :=
  if ¬ (dim.min_y % 16 = 0 ∧ -2032 ≤ dim.min_y ∧ dim.min_y ≤ 2016) then
    .err ("invalid min_y in dimension #" ++ toString i)
  else if ¬ (dim.height % 16 = 0 ∧ 0 ≤ dim.height ∧ dim.height ≤ 4064 ∧
      satAddI32 dim.min_y dim.height ≤ 2032) then
    .err ("invalid height in dimension #" ++ toString i)
  else if ¬ (0 ≤ dim.ambient_light ∧ dim.ambient_light ≤ 1) then
    .err ("ambient_light is out of range in dimension #" ++ toString i)
  else
    match dim.fixed_time with
    | some ft =>
      if ¬ (0 ≤ ft ∧ ft ≤ 24000) then
        .panicked ("fixed_time is out of range in dimension #" ++ toString i)
      else .ok
    | none => .ok

/-- Iterate `checkDimension` over the dimension list in order, stopping at
the first failure. -/
def checkDimensions : Nat → List Dimension → SetupResult
  | _, [] => .ok
  | i, d :: rest =>
    match checkDimension i d with
    | .ok => checkDimensions (i + 1) rest
    | r => r

/-- Duplicate-name detection over the biome list (`HashSet::insert` in
iteration order; the first repeated name errors). -/
def checkBiomeNames (seen : List String) : List Biome → SetupResult
  | [] => .ok
  | b :: rest =>
    if b.name ∈ seen then .err ("biome \x22" ++ b.name ++ "\x22 already added")
    else checkBiomeNames (b.name :: seen) rest

/-- `setup_server` validation sequence (src/server.rs lines 236-316), in
source order.  RSA key generation and runtime construction, which follow the
checks, are outside the model. -/
def setup_server (cfg : ConfigData) : SetupResult :=
  if ¬ (0 < cfg.tick_rate) then .err "tick rate must be greater than zero"
  else if ¬ (0 < cfg.incoming_packet_capacity) then
    .err "serverbound packet capacity must be nonzero"
  else if ¬ (0 < cfg.outgoing_packet_capacity) then
    .err "outgoing packet capacity must be nonzero"
  else if cfg.dimensions.isEmpty then .err "at least one dimension must be added"
  else if ¬ (cfg.dimensions.length ≤ 65535) then .err "more than u16::MAX dimensions added"
  else
    match checkDimensions 0 cfg.dimensions with
    | .ok =>
      if cfg.biomes.isEmpty then .err "at least one biome must be added"
      else if ¬ (cfg.biomes.length ≤ 65535) then .err "more than u16::MAX biomes added"
      else
        match checkBiomeNames [] cfg.biomes with
        | .ok => .ok
        | r => r
    | r => r

/-- A dimension satisfying every constraint. -/
def validDim : Dimension := { min_y := 0, height := 16, ambient_light := 0, fixed_time := none }

/-- A configuration that is valid except for an out-of-range `fixed_time`
in its only dimension. -/
def cfgBadFixedTime : ConfigData :=
  { max_connections := 10, tick_rate := 20, online_mode := false,
    incoming_packet_capacity := 64, outgoing_packet_capacity := 64,
    dimensions := [{ validDim with fixed_time := some 24001 }],
    biomes := [⟨"plains"⟩] }

/-- A fully valid configuration. -/
def cfgValid : ConfigData := { cfgBadFixedTime with dimensions := [validDim] }

/-- Claim C2 (code bug): the spec says every startup-constraint violation is
returned as a configuration-invalid error result, but an out-of-range
`fixed_time` trips an `assert!` and panics instead, while the sibling
violations (zero tick rate, bad `min_y`, duplicate biome names, ...) do
come back as error results. -/
theorem setup_server_fixed_time_panics :
    setup_server cfgBadFixedTime = .panicked "fixed_time is out of range in dimension #0"
    ∧ (∀ msg, setup_server cfgBadFixedTime ≠ .err msg)
    ∧ setup_server cfgValid = .ok
    ∧ setup_server { cfgValid with tick_rate := 0 } = .err "tick rate must be greater than zero"
    ∧ setup_server { cfgValid with incoming_packet_capacity := 0 }
        = .err "serverbound packet capacity must be nonzero"
    ∧ setup_server { cfgValid with outgoing_packet_capacity := 0 }
        = .err "outgoing packet capacity must be nonzero"
    ∧ setup_server { cfgValid with dimensions := [] }
        = .err "at least one dimension must be added"
    ∧ setup_server { cfgValid with dimensions := [{ validDim with min_y := -2033 }] }
        = .err "invalid min_y in dimension #0"
    ∧ setup_server { cfgValid with dimensions := [{ validDim with min_y := 2016, height := 32 }] }
        = .err "invalid height in dimension #0"
    ∧ setup_server { cfgValid with dimensions := [{ validDim with ambient_light := 2 }] }
        = .err "ambient_light is out of range in dimension #0"
    ∧ setup_server { cfgValid with biomes := [] }
        = .err "at least one biome must be added"
    ∧ setup_server { cfgValid with biomes := [⟨"plains"⟩, ⟨"plains"⟩] }
        = .err "biome \x22plains\x22 already added" := by
  refine ⟨by decide, ?_, by decide, by decide, by decide, by decide, by decide, by decide,
    by decide, by decide, by decide, by decide⟩
  intro msg
  have h : setup_server cfgBadFixedTime
      = .panicked "fixed_time is out of range in dimension #0" := by decide
  rw [h]
  intro hcontra
  exact SetupResult.noConfusion hcontra

/-! ## `handle_login` (src/server.rs lines 559-697)

The codec, the RSA library, SHA-256, the Mojang session server and the user
`Config::login` callback are external collaborators, abstracted as fields of
`LoginEnv`.  Packets written and mode switches performed on the codec are
recorded as an event trace. -/

/-- A socket address: the login handler stores the whole address in
`NewClientData` and uses only its IP in the session-server URL. -/
structure SocketAddr where
  ip : String
  port : Nat
deriving DecidableEq

/-- Modelled from the spec: `SignedPlayerTextures` (its module is not under
src/) is a signed-textures record built from the base64 `value` and
`signature` of the `textures` property. -/
structure SignedPlayerTextures where
  payload : String
  signature : String
deriving DecidableEq

/-- `NewClientData`: the authenticated identity produced by the login
handler (uuid is 16 bytes). -/
structure NewClientData where
  uuid : List Nat
  username : String
  textures : Option SignedPlayerTextures
  remote_addr : SocketAddr
deriving DecidableEq

/-- A property of the Mojang auth response (`{name, value, signature?}`). -/
structure AuthProperty where
  name : String
  value : String
  signature : Option String
deriving DecidableEq

/-- The JSON body of a successful `hasJoined` response. -/
structure AuthResponse where
  id : String
  name : String
  properties : List AuthProperty
deriving DecidableEq

/-- The second field of `EncryptionResponse`: either an encrypted verify
token or a message-signing signature (carried but unused). -/
inductive TokenOrSig where
  | verifyToken (ciphertext : List Nat)
  | msgSig (sig : List Nat)
deriving DecidableEq

/-- `EncryptionResponse` as read from the client. -/
structure EncryptionResponse where
  sharedSecret : List Nat
  tokenOrSig : TokenOrSig
deriving DecidableEq

/-- Packets written and codec mode switches performed by the login handler,
in order. -/
inductive Event where
  | encryptionRequest (serverId : String) (publicKey : List Nat) (verifyToken : List Nat)
  | encryptionEnabled (key : List Nat)
  | httpRequest (url : String)
  | setCompression (threshold : Int)
  | compressionEnabled (threshold : Int)
  | disconnect (reason : String)
  | loginSuccess (uuid : List Nat) (username : String) (properties : List AuthProperty)
deriving DecidableEq

/-- External collaborators and per-login inputs of `handle_login`. -/
structure LoginEnv where
  onlineMode : Bool
  publicKeyDer : List Nat
  validUsername : String → Bool
  rsaDecrypt : List Nat → Except String (List Nat)
  sha256 : List Nat → List Nat
  myVerifyToken : List Nat
  httpGet : String → Except String AuthResponse
  parseUuid : String → Except String (List Nat)
  texturesFromBase64 : String → String → Except String SignedPlayerTextures
  loginCallback : NewClientData → Option String

/-- The online-mode authentication phase (src/server.rs lines 571-655):
encryption request, shared-secret and verify-token decryption, the length
check, enabling encryption, and the Mojang `hasJoined` round trip. -/
def onlineAuth (env : LoginEnv) (username : String) (encResp : EncryptionResponse)
    (remoteAddr : SocketAddr) :
    List Event × Except String (List Nat × Option SignedPlayerTextures) :=
  let evs := [Event.encryptionRequest "" env.publicKeyDer env.myVerifyToken]
  match env.rsaDecrypt encResp.sharedSecret with
  | .error _ => (evs, .error "failed to decrypt shared secret")
  | .ok sharedSecret =>
    let tokenCheck : Except String Unit :=
      match encResp.tokenOrSig with
      | .verifyToken ct =>
        match env.rsaDecrypt ct with
        | .error _ => .error "failed to decrypt verify token"
        | .ok verifyToken =>
          if env.myVerifyToken = verifyToken then .ok () else .error "verify tokens do not match"
      | .msgSig _ => .ok ()
    match tokenCheck with
    | .error e => (evs, .error e)
    | .ok _ =>
      if sharedSecret.length = 16 then
        let evs := evs ++ [Event.encryptionEnabled sharedSecret]
        let hexHash := weird_hex_encoding (sha1 (sharedSecret ++ env.publicKeyDer))
        let url := "https://sessionserver.mojang.com/session/minecraft/hasJoined?username="
          ++ username ++ "&serverId=" ++ hexHash ++ "&ip=" ++ remoteAddr.ip
        let evs := evs ++ [Event.httpRequest url]
        match env.httpGet url with
        | .error e => (evs, .error e)
        | .ok data =>
          if data.name = username then
            match env.parseUuid data.id with
            | .error _ => (evs, .error "failed to parse player UUID")
            | .ok uuid =>
              match data.properties.find? (fun p => p.name = "textures") with
              | none => (evs, .error "failed to find textures in auth response")
              | some p =>
                match p.signature with
                | none => (evs, .error "missing signature for textures")
                | some sig =>
                  match env.texturesFromBase64 p.value sig with
                  | .error e => (evs, .error e)
                  | .ok textures => (evs, .ok (uuid, some textures))
          else (evs, .error "usernames do not match")
      else (evs, .error "shared secret has the wrong length")

/-- The tail of `handle_login` common to both modes (src/server.rs lines
663-696): `SetCompression{256}`, enabling compression, the user login
callback, and `Disconnect` or `LoginSuccess`. -/
def finishLogin (env : LoginEnv) (evs : List Event) (uuid : List Nat)
    (textures : Option SignedPlayerTextures) (username : String) (remoteAddr : SocketAddr) :
    List Event × Except String (Option NewClientData) :=
  let evs := evs ++ [Event.setCompression 256, Event.compressionEnabled 256]
  let npd : NewClientData := ⟨uuid, username, textures, remoteAddr⟩
  match env.loginCallback npd with
  | some reason => (evs ++ [Event.disconnect reason], .ok none)
  | none => (evs ++ [Event.loginSuccess npd.uuid npd.username []], .ok (some npd))

/-- `handle_login` (src/server.rs lines 559-697): username validation, then
the mode-dependent identity derivation, then the common tail. -/
def handle_login (env : LoginEnv) (username : String) (encResp : EncryptionResponse)
    (remoteAddr : SocketAddr) : List Event × Except String (Option NewClientData) :=
  if env.validUsername username then
    if env.onlineMode then
      match onlineAuth env username encResp remoteAddr with
      | (evs, .error e) => (evs, .error e)
      | (evs, .ok (uuid, textures)) => finishLogin env evs uuid textures username remoteAddr
    else
      finishLogin env [] ((env.sha256 (strBytes username)).take 16) none username remoteAddr
  else ([], .error ("invalid username " ++ username))

/-- A concrete offline-mode environment used by the witnesses. -/
def offlineEnv : LoginEnv :=
  { onlineMode := false, publicKeyDer := [], validUsername := fun _ => true,
    rsaDecrypt := fun _ => .error "e", sha256 := fun _ => List.range 32,
    myVerifyToken := [], httpGet := fun _ => .error "e",
    parseUuid := fun _ => .error "e", texturesFromBase64 := fun _ _ => .error "e",
    loginCallback := fun _ => none }

/-- A concrete online-mode environment (RSA decryption modelled as the
identity on ciphertexts) used by the witnesses. -/
def onlineEnv : LoginEnv :=
  { offlineEnv with
    onlineMode := true
    myVerifyToken := [0]
    rsaDecrypt := fun ct => .ok ct }

/-- Helper: `finishLogin` when the user callback accepts. -/
theorem finishLogin_accept (env : LoginEnv) (evs : List Event) (uuid : List Nat)
    (textures : Option SignedPlayerTextures) (username : String) (addr : SocketAddr)
    (h : env.loginCallback ⟨uuid, username, textures, addr⟩ = none) :
    finishLogin env evs uuid textures username addr =
      (evs ++ [Event.setCompression 256, Event.compressionEnabled 256,
        Event.loginSuccess uuid username []], .ok (some ⟨uuid, username, textures, addr⟩)) := by
  simp [finishLogin, h]

/-- Helper: `finishLogin` when the user callback returns a disconnect
reason. -/
theorem finishLogin_reject (env : LoginEnv) (evs : List Event) (uuid : List Nat)
    (textures : Option SignedPlayerTextures) (username : String) (addr : SocketAddr)
    (reason : String)
    (h : env.loginCallback ⟨uuid, username, textures, addr⟩ = some reason) :
    finishLogin env evs uuid textures username addr =
      (evs ++ [Event.setCompression 256, Event.compressionEnabled 256,
        Event.disconnect reason], .ok none) := by
  simp [finishLogin, h]

/-- Helper: `handle_login` in online mode propagates an `onlineAuth`
failure unchanged. -/
theorem handle_login_online_err (env : LoginEnv) (username : String)
    (encResp : EncryptionResponse) (addr : SocketAddr) (evs : List Event) (e : String)
    (hOn : env.onlineMode = true) (hValid : env.validUsername username = true)
    (hAuth : onlineAuth env username encResp addr = (evs, .error e)) :
    handle_login env username encResp addr = (evs, .error e) := by
  unfold handle_login
  rw [hValid, hOn]
  simp [hAuth]

/-- Claim C3: with `online_mode` false and a valid username, the login
handler sends no EncryptionRequest, derives the UUID from the first 16
bytes of SHA-256(username), produces no textures, and writes
SetCompression{256} then LoginSuccess, returning the new client data when
the login callback accepts. -/
theorem handle_login_offline (env : LoginEnv) (username : String)
    (encResp : EncryptionResponse) (addr : SocketAddr)
    (hOff : env.onlineMode = false) (hValid : env.validUsername username = true)
    (hAccept : env.loginCallback
      ⟨(env.sha256 (strBytes username)).take 16, username, none, addr⟩ = none) :
    handle_login env username encResp addr =
      ([Event.setCompression 256, Event.compressionEnabled 256,
        Event.loginSuccess ((env.sha256 (strBytes username)).take 16) username []],
       .ok (some ⟨(env.sha256 (strBytes username)).take 16, username, none, addr⟩))
    ∧ ∀ sid pk vt, Event.encryptionRequest sid pk vt ∉ (handle_login env username encResp addr).1 := by
  have h : handle_login env username encResp addr =
      ([Event.setCompression 256, Event.compressionEnabled 256,
        Event.loginSuccess ((env.sha256 (strBytes username)).take 16) username []],
       .ok (some ⟨(env.sha256 (strBytes username)).take 16, username, none, addr⟩)) := by
    unfold handle_login
    rw [hValid, hOff]
    simp only [if_true, Bool.false_eq_true, if_false]
    rw [finishLogin_accept env [] ((env.sha256 (strBytes username)).take 16) none username addr
      hAccept]
    simp
  refine ⟨h, ?_⟩
  intro sid pk vt
  rw [h]
  simp

/-- Witness for C3: the theorem applied in the concrete offline environment
to username "Player". -/
theorem handle_login_offline_witness :
    handle_login offlineEnv "Player" ⟨[], .msgSig []⟩ ⟨"127.0.0.1", 25565⟩ =
      ([Event.setCompression 256, Event.compressionEnabled 256,
        Event.loginSuccess ((List.range 32).take 16) "Player" []],
       .ok (some ⟨(List.range 32).take 16, "Player", none, ⟨"127.0.0.1", 25565⟩⟩)) :=
  (handle_login_offline offlineEnv "Player" ⟨[], .msgSig []⟩ ⟨"127.0.0.1", 25565⟩
    rfl rfl rfl).1

/-- Claim C4: in online mode, when the encryption response carries an
encrypted verify token whose decryption differs from the token the server
sent, the handler fails and no session-server HTTP request is ever issued. -/
theorem handle_login_verify_mismatch (env : LoginEnv) (username : String)
    (encResp : EncryptionResponse) (addr : SocketAddr) (ct vt : List Nat)
    (hOn : env.onlineMode = true) (hValid : env.validUsername username = true)
    (hTok : encResp.tokenOrSig = .verifyToken ct)
    (hDec : env.rsaDecrypt ct = .ok vt) (hNe : vt ≠ env.myVerifyToken) :
    (handle_login env username encResp addr).2.isOk = false
    ∧ ∀ url, Event.httpRequest url ∉ (handle_login env username encResp addr).1 := by
  have hne : ¬ (env.myVerifyToken = vt) := fun hcontra => hNe hcontra.symm
  obtain ⟨e, hAuth⟩ : ∃ e, onlineAuth env username encResp addr =
      ([Event.encryptionRequest "" env.publicKeyDer env.myVerifyToken], .error e) := by
    unfold onlineAuth
    cases hss : env.rsaDecrypt encResp.sharedSecret with
    | error e2 => exact ⟨"failed to decrypt shared secret", by simp⟩
    | ok ss => exact ⟨"verify tokens do not match", by simp [hTok, hDec, hne]⟩
  have h := handle_login_online_err env username encResp addr _ _ hOn hValid hAuth
  rw [h]
  exact ⟨rfl, by intro url; simp⟩

/-- Witness for C4: the theorem applied in the concrete online environment
with a token that decrypts to a wrong value. -/
theorem handle_login_verify_mismatch_witness :
    (handle_login onlineEnv "Player" ⟨[1], .verifyToken [1]⟩ ⟨"127.0.0.1", 25565⟩).2.isOk = false :=
  (handle_login_verify_mismatch onlineEnv "Player" ⟨[1], .verifyToken [1]⟩ ⟨"127.0.0.1", 25565⟩
    [1] [1] rfl rfl rfl rfl (by decide)).1

/-- Claim C5: in online mode, if RSA decryption of the shared secret fails
or the cleartext is not exactly 16 bytes, the handler fails and neither the
Mojang request nor LoginSuccess is ever reached. -/
theorem handle_login_shared_secret_failure (env : LoginEnv) (username : String)
    (encResp : EncryptionResponse) (addr : SocketAddr)
    (hOn : env.onlineMode = true) (hValid : env.validUsername username = true)
    (hLen : ∀ ss, env.rsaDecrypt encResp.sharedSecret = .ok ss → ss.length ≠ 16) :
    (handle_login env username encResp addr).2.isOk = false
    ∧ (∀ url, Event.httpRequest url ∉ (handle_login env username encResp addr).1)
    ∧ (∀ uuid name props,
        Event.loginSuccess uuid name props ∉ (handle_login env username encResp addr).1) := by
  obtain ⟨e, hAuth⟩ : ∃ e, onlineAuth env username encResp addr =
      ([Event.encryptionRequest "" env.publicKeyDer env.myVerifyToken], .error e) := by
    unfold onlineAuth
    cases hss : env.rsaDecrypt encResp.sharedSecret with
    | error e2 => exact ⟨"failed to decrypt shared secret", by simp⟩
    | ok ss =>
      have hlen : ¬ (ss.length = 16) := hLen ss hss
      cases hts : encResp.tokenOrSig with
      | verifyToken ct =>
        cases hct : env.rsaDecrypt ct with
        | error e2 => exact ⟨"failed to decrypt verify token", by simp [hct]⟩
        | ok verifyToken =>
          by_cases htok : env.myVerifyToken = verifyToken
          · exact ⟨"shared secret has the wrong length", by simp [hct, htok, hlen]⟩
          · exact ⟨"verify tokens do not match", by simp [hct, htok]⟩
      | msgSig sig => exact ⟨"shared secret has the wrong length", by simp [hlen]⟩
  have h := handle_login_online_err env username encResp addr _ _ hOn hValid hAuth
  rw [h]
  exact ⟨rfl, by intro url; simp, by intro uuid name props; simp⟩

/-- Witness for C5: the theorem applied in the concrete online environment
with a shared secret that decrypts to a single byte. -/
theorem handle_login_shared_secret_failure_witness :
    (handle_login onlineEnv "Player" ⟨[1], .msgSig []⟩ ⟨"127.0.0.1", 25565⟩).2.isOk = false :=
  (handle_login_shared_secret_failure onlineEnv "Player" ⟨[1], .msgSig []⟩ ⟨"127.0.0.1", 25565⟩
    rfl rfl (by intro ss hss; injection hss with h; rw [← h]; decide)).1

/-- Claim C7: every login that reaches the user callback either gets a
disconnect reason back, in which case a Disconnect packet is written and
the handler returns no client data, or is accepted, in which case
LoginSuccess with the computed uuid, the username and an empty property
list is written and the client data is returned. -/
theorem finishLogin_callback (env : LoginEnv) (evs : List Event) (uuid : List Nat)
    (textures : Option SignedPlayerTextures) (username : String) (addr : SocketAddr) :
    (∀ reason, env.loginCallback ⟨uuid, username, textures, addr⟩ = some reason →
      finishLogin env evs uuid textures username addr =
        (evs ++ [Event.setCompression 256, Event.compressionEnabled 256,
          Event.disconnect reason], .ok none))
    ∧ (env.loginCallback ⟨uuid, username, textures, addr⟩ = none →
      finishLogin env evs uuid textures username addr =
        (evs ++ [Event.setCompression 256, Event.compressionEnabled 256,
          Event.loginSuccess uuid username []], .ok (some ⟨uuid, username, textures, addr⟩))) := by
  constructor
  · intro reason hreject
    exact finishLogin_reject env evs uuid textures username addr reason hreject
  · intro haccept
    exact finishLogin_accept env evs uuid textures username addr haccept

/-- Witness for C7: the theorem applied in the concrete offline environment
(whose callback accepts). -/
theorem finishLogin_callback_witness :
    finishLogin offlineEnv [] [] none "Player" ⟨"127.0.0.1", 25565⟩ =
      ([Event.setCompression 256, Event.compressionEnabled 256,
        Event.loginSuccess [] "Player" []],
       .ok (some ⟨[], "Player", none, ⟨"127.0.0.1", 25565⟩⟩)) :=
  (finishLogin_callback offlineEnv [] [] none "Player" ⟨"127.0.0.1", 25565⟩).2 rfl

/-! ## `handle_status` (src/server.rs lines 507-556)

JSON objects are modelled as ordered key-value lists; the `base64` crate's
standard-alphabet padded encoder is given a reference implementation. -/

/-- Character `n` of the standard base64 alphabet. -/
def base64Char (n : Nat) : Char :=
  if n < 26 then Char.ofNat (65 + n)
  else if n < 52 then Char.ofNat (97 + (n - 26))
  else if n < 62 then Char.ofNat (48 + (n - 52))
  else if n = 62 then '+' else '/'

/-- Standard base64 with padding (`base64::STANDARD`), three input bytes
per four output characters. -/
def base64Encode : List Nat → String
  | [] => ""
  | [a] => String.mk [base64Char (a / 4), base64Char (a % 4 * 16), '=', '=']
  | [a, b] => String.mk [base64Char (a / 4), base64Char (a % 4 * 16 + b / 16),
      base64Char (b % 16 * 4), '=']
  | a :: b :: c :: rest =>
    String.mk [base64Char (a / 4), base64Char (a % 4 * 16 + b / 16),
      base64Char (b % 16 * 4 + c / 64), base64Char (c % 64)] ++ base64Encode rest

/-- A JSON value (the fragment used by the status response). -/
inductive Json where
  | str (s : String)
  | int (n : Int)
  | obj (fields : List (String × Json))

/-- The keys of a JSON object, in order. -/
def Json.keys : Json → List String
  | .obj fs => fs.map Prod.fst
  | _ => []

/-- Field lookup in a JSON object. -/
def Json.get : Json → String → Option Json
  | .obj fs, k => (fs.find? (fun p => p.1 = k)).map Prod.snd
  | _, _ => none

/-- The user callback outcome for a server-list ping. -/
inductive ServerListPing where
  | respond (onlinePlayers maxPlayers : Int) (description : String)
      (faviconPng : Option (List Nat))
  | ignore

/-- Packets written by the status handler, in order. -/
inductive StatusEvent where
  | statusResponse (json : Json)
  | pongResponse (payload : Int)

/-- The status JSON built by `handle_status` (src/server.rs lines 521-540):
the `version`, `players` and `description` fields, plus a `favicon` data
URL inserted only when favicon bytes are provided. -/
def statusJson (versionName : String) (protocolVersion onlinePlayers maxPlayers : Int)
    (description : String) (faviconPng : Option (List Nat)) : Json :=
  Json.obj
    ([("version", Json.obj [("name", .str versionName), ("protocol", .int protocolVersion)]),
      ("players", Json.obj [("online", .int onlinePlayers), ("max", .int maxPlayers)]),
      ("description", .str description)] ++
      match faviconPng with
      | none => []
      | some data => [("favicon", .str ("data:image/png;base64," ++ base64Encode data))])

/-- `handle_status` (src/server.rs lines 507-556): on `Respond` write the
status JSON then echo the ping payload; on `Ignore` write nothing. -/
def handle_status (versionName : String) (protocolVersion : Int)
    (ping : ServerListPing) (pingPayload : Int) : List StatusEvent :=
  match ping with
  | .ignore => []
  | .respond o m d f =>
    [.statusResponse (statusJson versionName protocolVersion o m d f),
     .pongResponse pingPayload]

/-- Claim C6: on `Respond`, the handler writes a StatusResponse whose JSON
has exactly the keys `version` (with `name` and `protocol`), `players`
(with `online` and `max`) and `description`, plus `favicon` — a
standard-alphabet padded base64 data URL — exactly when favicon bytes are
provided, and then echoes the ping payload in a PongResponse. -/
theorem handle_status_respond (vn : String) (pv o m payload : Int) (d : String)
    (f : Option (List Nat)) :
    handle_status vn pv (.respond o m d f) payload =
      [.statusResponse (statusJson vn pv o m d f), .pongResponse payload]
    ∧ (statusJson vn pv o m d f).keys
        = ["version", "players", "description"] ++ (if f.isSome then ["favicon"] else [])
    ∧ (statusJson vn pv o m d f).get "version"
        = some (Json.obj [("name", .str vn), ("protocol", .int pv)])
    ∧ (statusJson vn pv o m d f).get "players"
        = some (Json.obj [("online", .int o), ("max", .int m)])
    ∧ (statusJson vn pv o m d f).get "description" = some (.str d)
    ∧ (∀ data, f = some data → (statusJson vn pv o m d f).get "favicon"
        = some (.str ("data:image/png;base64," ++ base64Encode data)))
    ∧ (f = none → (statusJson vn pv o m d f).get "favicon" = none) := by
  refine ⟨rfl, ?_, ?_, ?_, ?_, ?_, ?_⟩
  · cases f <;> simp [statusJson, Json.keys]
  · cases f <;> simp [statusJson, Json.get]
  · cases f <;> simp [statusJson, Json.get]
  · cases f <;> simp [statusJson, Json.get]
  · intro data hdata
    subst hdata
    simp [statusJson, Json.get]
  · intro hnone
    subst hnone
    simp [statusJson, Json.get]

/-- Witness for C6: the theorem applied at the spec's concrete scenario
(`online=1, max=10, description="hi"`, no favicon, ping payload 42). -/
theorem handle_status_respond_witness :
    handle_status "1.19.2" 760 (.respond 1 10 "hi" none) 42 =
      [.statusResponse (statusJson "1.19.2" 760 1 10 "hi" none), .pongResponse 42]
    ∧ (statusJson "1.19.2" 760 1 10 "hi" none).get "favicon" = none :=
  ⟨(handle_status_respond "1.19.2" 760 1 10 42 "hi" none).1,
   (handle_status_respond "1.19.2" 760 1 10 42 "hi" none).2.2.2.2.2.2 rfl⟩

/-! ## `shutdown`, the connection semaphore and the update loop
(src/server.rs lines 203-210, 362-369, 437-474)

The concurrent shared state is embedded as an explicit state record; the
operations the tasks perform on it form a small transition system. -/

/-- The mutable part of `SharedServerInner` relevant to shutdown: the
connection semaphore (permit count plus closed flag) and the shutdown
slot. -/
structure SharedState where
  semaClosed : Bool
  semaPermits : Nat
  shutdownResult : Option (Except String Unit)

/-- `SharedServer::shutdown` (src/server.rs lines 203-210): close the
connection semaphore and store the result. -/
def shutdown (res : Except String Unit) (s : SharedState) : SharedState :=
  { s with semaClosed := true, shutdownResult := some res }

/-- Outcome of `connection_sema.acquire_owned()`: a permit, a wait (no
permits available), or the closed error that terminates the accept loop. -/
inductive AcquireOutcome where
  | acquired (s : SharedState)
  | blocked
  | closed

/-- Permit acquisition against the semaphore: fails exactly when the
semaphore is closed. -/
def acquire (s : SharedState) : AcquireOutcome :=
  if s.semaClosed then .closed
  else if 0 < s.semaPermits then .acquired { s with semaPermits := s.semaPermits - 1 }
  else .blocked

/-- The operations tasks perform on the shared state: a shutdown call, a
permit acquisition by the accept loop, a permit release at connection task
exit. -/
inductive ServerOp where
  | shutdownOp (res : Except String Unit)
  | acquirePermit
  | releasePermit

/-- Apply one operation to the shared state. -/
def applyOp (s : SharedState) : ServerOp → SharedState
  | .shutdownOp res => shutdown res s
  | .acquirePermit =>
    match acquire s with
    | .acquired t => t
    | _ => s
  | .releasePermit => { s with semaPermits := s.semaPermits + 1 }

/-- Apply a sequence of operations. -/
def applyOps (s : SharedState) (ops : List ServerOp) : SharedState := ops.foldl applyOp s

/-- The shutdown check at the top of each `do_update_loop` iteration
(src/server.rs lines 366-369): if the slot holds a result, take it and
return it — this is the value `start_server` returns. -/
def update_loop_shutdown_check (s : SharedState) : Option (Except String Unit) :=
  s.shutdownResult

theorem applyOp_closed (s : SharedState) (op : ServerOp) (h : s.semaClosed = true) :
    (applyOp s op).semaClosed = true := by
  cases op with
  | shutdownOp res => rfl
  | acquirePermit => simp [applyOp, acquire, h]
  | releasePermit => exact h

theorem applyOps_closed (ops : List ServerOp) :
    ∀ s : SharedState, s.semaClosed = true → (applyOps s ops).semaClosed = true := by
  induction ops with
  | nil => intro s h; exact h
  | cons op rest ih =>
    intro s h
    exact ih (applyOp s op) (applyOp_closed s op h)

/-- Claim C8: `shutdown(result)` closes the permit source, so that however
the tasks interleave afterwards, every later permit acquisition fails
(the accept loop terminates and admits no further connection), and the
stored result is what the update loop's shutdown check returns at its next
iteration — the return value of `start_server`. -/
theorem shutdown_spec (s : SharedState) (res : Except String Unit) (ops : List ServerOp) :
    (shutdown res s).semaClosed = true
    ∧ acquire (applyOps (shutdown res s) ops) = .closed
    ∧ update_loop_shutdown_check (shutdown res s) = some res := by
  refine ⟨rfl, ?_, rfl⟩
  have hclosed : (applyOps (shutdown res s) ops).semaClosed = true :=
    applyOps_closed ops (shutdown res s) rfl
  simp [acquire, hclosed]

/-! ## The tick counter (src/server.rs lines 194-196, 351, 409-415)

`tick_counter` is an `AtomicI64` initialised to 0 and incremented with the
wrapping `fetch_add(1)` at the end of each completed loop iteration;
`current_tick` is a plain load. -/

/-- Wrap an integer into the `i64` range [-2^63, 2^63). -/
def wrapI64 (x : Int) : Int := (x + 2 ^ 63) % 2 ^ 64 - 2 ^ 63

/-- The tick-counter state of the update loop. -/
structure TickState where
  counter : Int
deriving DecidableEq

/-- The counter effect of one completed `do_update_loop` iteration:
`tick_counter.fetch_add(1)` with `i64` wrapping (src/server.rs line 414);
no other code writes the counter. -/
def tickIteration (s : TickState) : TickState := ⟨wrapI64 (s.counter + 1)⟩

/-- The counter state after `n` completed iterations, starting from the
initial `AtomicI64::new(0)`. -/
def tickStateAfter : Nat → TickState
  | 0 => ⟨0⟩
  | n + 1 => tickIteration (tickStateAfter n)

/-- `SharedServer::current_tick`: load the counter. -/
def current_tick (s : TickState) : Int := s.counter

theorem wrapI64_small (n : Nat) (h : (n : Int) < 2 ^ 63) : wrapI64 n = n := by
  unfold wrapI64
  omega

theorem wrapI64_step (a : Int) : wrapI64 (wrapI64 a + 1) = wrapI64 (a + 1) := by
  unfold wrapI64
  omega

theorem tickStateAfter_closed (n : Nat) : tickStateAfter n = ⟨wrapI64 n⟩ := by
  induction n with
  | zero =>
    show (⟨0⟩ : TickState) = ⟨wrapI64 0⟩
    congr 1
  | succ n ih =>
    show tickIteration (tickStateAfter n) = _
    rw [ih]
    show (⟨wrapI64 (wrapI64 n + 1)⟩ : TickState) = ⟨wrapI64 (n + 1)⟩
    rw [wrapI64_step]

theorem current_tick_mk (x : Int) : current_tick ⟨x⟩ = x := rfl

theorem current_tick_after (n : Nat) : current_tick (tickStateAfter n) = wrapI64 n :=
  (congrArg current_tick (tickStateAfter_closed n)).trans (current_tick_mk _)

/-- Counterexample to C9 as stated: the `i64` counter wraps, so the sample
after 2^63 completed ticks is negative and smaller than the sample one
tick earlier, violating monotonicity. -/
theorem tick_counter_not_monotone :
    2 ^ 63 - 1 ≤ (2 ^ 63 : Nat)
    ∧ current_tick (tickStateAfter (2 ^ 63)) < current_tick (tickStateAfter (2 ^ 63 - 1)) := by
  refine ⟨by omega, ?_⟩
  rw [current_tick_after, current_tick_after]
  unfold wrapI64
  omega

/-- Claim C9 as amended: the counter starts at zero and is incremented by
exactly one wrapping `i64` increment per completed iteration and nowhere
else; samples are monotonically non-decreasing as long as fewer than 2^63
ticks have completed (before the `i64` wrap). -/
theorem tick_counter_monotone (e l : Nat) (hel : e ≤ l) (hl : l < 2 ^ 63) :
    current_tick (tickStateAfter 0) = 0
    ∧ (∀ n, tickStateAfter (n + 1) = tickIteration (tickStateAfter n))
    ∧ current_tick (tickStateAfter e) ≤ current_tick (tickStateAfter l) := by
  refine ⟨rfl, fun n => rfl, ?_⟩
  rw [current_tick_after, current_tick_after]
  have hl2 : (l : Int) < 2 ^ 63 := by exact_mod_cast hl
  have he2 : (e : Int) < 2 ^ 63 := lt_of_le_of_lt (by exact_mod_cast hel) hl2
  rw [wrapI64_small e he2, wrapI64_small l hl2]
  exact_mod_cast hel

/-- Witness for C9's amended theorem at concrete sample indices 0 and 1. -/
theorem tick_counter_monotone_witness :
    (0 : Nat) ≤ 1 ∧ (1 : Nat) < 2 ^ 63
    ∧ current_tick (tickStateAfter 0) ≤ current_tick (tickStateAfter 1) :=
  ⟨by omega, by norm_num,
   (tick_counter_monotone 0 1 (by omega) (by norm_num)).2.2⟩

/-! ## `join_player` (src/server.rs lines 418-430) -/

/-- A bounded flume channel, described by its capacity. -/
structure Channel where
  capacity : Nat
deriving DecidableEq

/-- The tick-loop side of a connected client: identity plus its halves of
the two packet channels (clientbound sender, serverbound receiver). -/
structure ClientModel where
  ncd : NewClientData
  clientbound : Channel
  serverbound : Channel
deriving DecidableEq

/-- The server state touched by `join_player`: the configured packet
capacities and the client collection. -/
structure TickServer where
  outgoingPacketCapacity : Nat
  incomingPacketCapacity : Nat
  clients : List ClientModel
deriving DecidableEq

/-- A `NewClientMessage` as drained by the tick loop: the client data plus
whether the login task's oneshot receiver is still alive. -/
structure NewClientMessage where
  ncd : NewClientData
  replyAlive : Bool
deriving DecidableEq

/-- `join_player` (src/server.rs lines 418-430): create both bounded
channels with the configured capacities, send the reply (its error is
discarded with `let _ = ...`), construct the client and insert it.  The
returned flag reports whether the reply was actually delivered. -/
def join_player (server : TickServer) (msg : NewClientMessage) : TickServer × Bool :=
  let clientbound : Channel := ⟨server.outgoingPacketCapacity⟩
  let serverbound : Channel := ⟨server.incomingPacketCapacity⟩
  let replyDelivered := msg.replyAlive
  let client : ClientModel := ⟨msg.ncd, clientbound, serverbound⟩
  ({ server with clients := server.clients ++ [client] }, replyDelivered)

/-- Claim C10: `join_player` creates the channels with the configured
capacities and inserts the client unconditionally — the insertion is the
same whether or not the oneshot reply could be delivered, so a client can
be inserted even when the login task is already gone. -/
theorem join_player_unconditional (server : TickServer) (msg : NewClientMessage) :
    (join_player server msg).1.clients =
      server.clients ++ [⟨msg.ncd, ⟨server.outgoingPacketCapacity⟩,
        ⟨server.incomingPacketCapacity⟩⟩]
    ∧ (join_player server msg).2 = msg.replyAlive
    ∧ (join_player server { msg with replyAlive := false }).1 = (join_player server msg).1 :=
  ⟨rfl, rfl, rfl⟩

end Valence
